import Mathlib

/-!
# Verification of `scripts/coverage-report.py`

A shallow embedding of the LCOV coverage-report script. Python strings are
modelled as `List Char`; Python float arithmetic on coverage percentages is
modelled exactly with `ℚ`. Each helper mirrors the Python construct it is
named after:

* `pySplit sep s`   — `s.split(sep)` for a nonempty separator
* `pyContains h n`  — `n in h` (substring containment)
* `pyStartsWith`    — `s.startswith(p)`
* `pyInt?`          — `int(s)`: `none` models a `ValueError` being raised
  (Python's underscore digit separators are not modelled; no input in this
  development uses them)

The parser loop of `parse_lcov` is modelled as structural recursion over the
list of `SF:`-delimited blocks; an uncaught Python exception anywhere in the
loop surfaces as `none`.
-/

namespace CoverageReport

/-- `s.split(sep)` with fuel; Python splits at every non-overlapping
occurrence, left to right, keeping empty pieces. `acc` is the current piece,
reversed. Fuel at least `s.length + 1` always suffices for nonempty `sep`. -/
def pySplitGo (sep : List Char) : Nat → List Char → List Char → List (List Char)
  | 0, acc, s => [acc.reverse ++ s]
  | Nat.succ fuel, acc, s =>
    match s with
    | [] => [acc.reverse]
    | c :: rest =>
      if sep.isPrefixOf s then
        acc.reverse :: pySplitGo sep fuel [] (s.drop sep.length)
      else
        pySplitGo sep fuel (c :: acc) rest

/-- Python `s.split(sep)` for a nonempty separator. -/
def pySplit (sep s : List Char) : List (List Char) :=
  pySplitGo sep (s.length + 1) [] s

/-- Python `needle in hay` for strings: substring containment. -/
def pyContains (hay needle : List Char) : Bool :=
  needle.isPrefixOf hay ||
    match hay with
    | [] => false
    | _ :: t => pyContains t needle

/-- Python `s.startswith(p)`. -/
def pyStartsWith (s p : List Char) : Bool :=
  p.isPrefixOf s

/-- Numeric value of a digit string (most significant first). -/
def digitsVal (ds : List Char) : Nat :=
  ds.foldl (fun a c => a * 10 + (c.toNat - 48)) 0

/-- Strip leading and trailing whitespace, as Python `str.strip()` does
before `int` conversion. -/
def pyStrip (s : List Char) : List Char :=
  ((s.dropWhile Char.isWhitespace).reverse.dropWhile Char.isWhitespace).reverse

/-- Python `int(s)`: optional surrounding whitespace, optional sign, then a
nonempty run of digits. `none` models `int` raising `ValueError`. -/
def pyInt? (s : List Char) : Option Int :=
  match pyStrip s with
  | [] => none
  | c :: rest =>
    if c = '-' then
      if rest ≠ [] ∧ rest.all Char.isDigit then some (-(digitsVal rest : Int)) else none
    else if c = '+' then
      if rest ≠ [] ∧ rest.all Char.isDigit then some ((digitsVal rest : Int)) else none
    else if (c :: rest).all Char.isDigit then some ((digitsVal (c :: rest) : Int)) else none

/-- One `{'lines': _, 'hit': _}` entry of the `results` dict. -/
structure Counts where
  lines : Int
  hit : Int
deriving DecidableEq, Repr

/-- The `results` dict built by `parse_lcov`. -/
structure Results where
  total : Counts
  generated : Counts
  domain : Counts
  data : Counts
  application : Counts
  presentation : Counts
  services : Counts
  core : Counts
  other : Counts
deriving DecidableEq, Repr

/-- The seven non-generated layer buckets. -/
inductive Layer where
  | domain | data | application | presentation | services | core | other
deriving DecidableEq, Repr

/-- All-zero `results` dict (its initial value in `parse_lcov`). -/
def zeroResults : Results :=
  ⟨⟨0, 0⟩, ⟨0, 0⟩, ⟨0, 0⟩, ⟨0, 0⟩, ⟨0, 0⟩, ⟨0, 0⟩, ⟨0, 0⟩, ⟨0, 0⟩, ⟨0, 0⟩⟩

/-- `results[layer]` for a layer bucket. -/
def layerGet (r : Results) : Layer → Counts
  | .domain => r.domain
  | .data => r.data
  | .application => r.application
  | .presentation => r.presentation
  | .services => r.services
  | .core => r.core
  | .other => r.other

/-- `c['lines'] += lf; c['hit'] += lh`. -/
def addC (c : Counts) (lf lh : Int) : Counts :=
  ⟨c.lines + lf, c.hit + lh⟩

/-- Bump one layer bucket by `(lf, lh)`. -/
def layerAdd (r : Results) (l : Layer) (lf lh : Int) : Results :=
  match l with
  | .domain => { r with domain := addC r.domain lf lh }
  | .data => { r with data := addC r.data lf lh }
  | .application => { r with application := addC r.application lf lh }
  | .presentation => { r with presentation := addC r.presentation lf lh }
  | .services => { r with services := addC r.services lf lh }
  | .core => { r with core := addC r.core lf lh }
  | .other => { r with other := addC r.other lf lh }

/-- `'.g.dart' in filename or '.freezed.dart' in filename`. -/
def isGenerated (filename : List Char) : Bool :=
  pyContains filename ".g.dart".data || pyContains filename ".freezed.dart".data

/-- The `if '/domain/' in filename: ... elif ... else: other` chain of
`parse_lcov`, first match wins. -/
def classify (filename : List Char) : Layer :=
  if pyContains filename "/domain/".data then .domain
  else if pyContains filename "/data/".data then .data
  else if pyContains filename "/application/".data then .application
  else if pyContains filename "/presentation/".data then .presentation
  else if pyContains filename "/services/".data then .services
  else if pyContains filename "/core/".data then .core
  else .other

/-- Consume one parsed file record into the `results` dict: generated files
go only to `generated`; every other file goes to `total` and to exactly the
bucket chosen by `classify`. -/
def addRecord (r : Results) (filename : List Char) (lf lh : Int) : Results :=
  if isGenerated filename then
    { r with generated := addC r.generated lf lh }
  else
    layerAdd { r with total := addC r.total lf lh } (classify filename) lf lh

/-- Per-block record extraction, over the block's already-split lines.
`none` = an uncaught `ValueError` from `int`; `some none` = block lacking an
`LF:` or `LH:` line, silently skipped; `some (some (path, lf, lh))` = the
record consumed into the totals. -/
def recordOfLines (ls : List (List Char)) : Option (Option (List Char × Int × Int)) :=
  match ls.filter (fun l => pyStartsWith l "LF:".data),
        ls.filter (fun l => pyStartsWith l "LH:".data) with
  | lfLine :: _, lhLine :: _ =>
    match pyInt? ((pySplit ":".data lfLine).getD 1 []),
          pyInt? ((pySplit ":".data lhLine).getD 1 []) with
    | some lf, some lh => some (some (ls.headD [], lf, lh))
    | _, _ => none
  | _, _ => some none

/-- Record extraction for one raw `SF:`-delimited block:
`lines = file_block.split('\n')`, then `recordOfLines`. -/
def blockRecord? (block : List Char) : Option (Option (List Char × Int × Int)) :=
  recordOfLines (pySplit ['\n'] block)

/-- One iteration of the `for file_block in files[1:]` loop. -/
def processBlock (r : Results) (block : List Char) : Option Results :=
  match blockRecord? block with
  | none => none
  | some none => some r
  | some (some (f, lf, lh)) => some (addRecord r f lf lh)

/-- The parser loop over all blocks. -/
def runBlocks (r : Results) : List (List Char) → Option Results
  | [] => some r
  | b :: bs =>
    match processBlock r b with
    | none => none
    | some r' => runBlocks r' bs

/-- `content.split('SF:')[1:]`: the file blocks of the trace text. -/
def fileBlocks (content : List Char) : List (List Char) :=
  (pySplit "SF:".data content).drop 1

/-- `parse_lcov` applied to the text content of an existing trace file:
the `results` dict, or `none` if a `ValueError` escapes the loop. -/
def parse_lcov (content : List Char) : Option Results :=
  runBlocks zeroResults (fileBlocks content)

/-- The sequence of per-file records the loop consumes into the totals
(skipped blocks contribute nothing), or `none` on an uncaught exception. -/
def fileRecordsGo (acc : List (List Char × Int × Int)) :
    List (List Char) → Option (List (List Char × Int × Int))
  | [] => some acc
  | b :: bs =>
    match blockRecord? b with
    | none => none
    | some none => fileRecordsGo acc bs
    | some (some rec) => fileRecordsGo (acc ++ [rec]) bs

/-- All records consumed when parsing `content`. -/
def fileRecords? (content : List Char) : Option (List (List Char × Int × Int)) :=
  fileRecordsGo [] (fileBlocks content)

/-- `TARGETS['overall']`. -/
def overallTarget : Int := 80

/-- `TARGETS.get(layer, 80)`: the per-layer targets dict with default 80
(`other` has no entry and falls back to the default). -/
def TARGETS_get : Layer → Int
  | .domain => 95
  | .data => 90
  | .application => 85
  | .presentation => 70
  | .services => 80
  | .core => 80
  | .other => 80

/-- `calculate_coverage`: `0.0` when no lines, else `hit / lines * 100`. -/
def calculate_coverage (c : Counts) : ℚ :=
  if c.lines = 0 then 0 else ((c.hit : ℚ) / (c.lines : ℚ)) * 100

/-- Report status values. -/
inductive Status where
  | PASS | WARN | FAIL
deriving DecidableEq, Repr

/-- The per-layer status rule of `print_report` (lines 142-147). -/
def layerStatus (cov target : ℚ) : Status :=
  if cov ≥ target then .PASS
  else if cov ≥ target - 10 then .WARN
  else .FAIL

/-- The overall-status rule of `print_report` (line 119):
`"PASS" if overall_cov >= TARGETS['overall'] else "FAIL"`. -/
def overall_status (cov : ℚ) : Status :=
  if cov ≥ (overallTarget : ℚ) then .PASS else .FAIL

/-- One row of the per-layer table printed by `print_report`. -/
structure Row where
  layer : Layer
  hit : Int
  lines : Int
  cov : ℚ
  target : Int
  status : Status
deriving DecidableEq, Repr

/-- The fixed display order of `print_report` and `print_json`. -/
def displayOrder : List Layer :=
  [.domain, .data, .application, .presentation, .services, .core, .other]

/-- The rows of the per-layer table: layers with `lines > 0`, in display
order, with coverage, target and status as printed. -/
def reportRows (r : Results) : List Row :=
  displayOrder.filterMap (fun l =>
    let d := layerGet r l
    if d.lines > 0 then
      some ⟨l, d.hit, d.lines, calculate_coverage d, TARGETS_get l,
            layerStatus (calculate_coverage d) ((TARGETS_get l : Int) : ℚ)⟩
    else none)

/-- The value `print_report` returns to `main`. -/
def print_report_cov (r : Results) : ℚ :=
  calculate_coverage r.total

/-- One entry of the `layers` mapping in the JSON document. -/
structure JsonLayer where
  coverage : ℚ
  hit : Int
  lines : Int
  target : Int
deriving DecidableEq, Repr

/-- Python `round(x, 1)`. (Python rounds half to even; no value in this
development falls on a half-way boundary, so round-half-up is used.) -/
def roundTo1 (q : ℚ) : ℚ :=
  ((round (q * 10) : ℤ) : ℚ) / 10

/-- The structured document built by `print_json`. -/
structure JsonOut where
  overall_coverage : ℚ
  overall_hit : Int
  overall_lines : Int
  overall_target : Int
  generated_excluded : Int
  layers : List (Layer × JsonLayer)
deriving DecidableEq, Repr

/-- `print_json`: the JSON document. `overall.coverage` is unrounded; layer
coverages are rounded to one decimal; zero-line layers are omitted. -/
def print_json (r : Results) : JsonOut :=
  { overall_coverage := calculate_coverage r.total
    overall_hit := r.total.hit
    overall_lines := r.total.lines
    overall_target := overallTarget
    generated_excluded := r.generated.lines
    layers := displayOrder.filterMap (fun l =>
      let d := layerGet r l
      if d.lines > 0 then
        some (l, ⟨roundTo1 (calculate_coverage d), d.hit, d.lines, TARGETS_get l⟩)
      else none) }

/-- How a run of the script ends: `exits code rendered` is a normal
`sys.exit`/fall-through with the given exit code, `rendered` recording
whether a report (text or JSON) was produced; `raises` is an uncaught
Python exception escaping `main`. -/
inductive Outcome where
  | exits (code : Nat) (rendered : Bool)
  | raises
deriving DecidableEq, Repr

/-- `main`: the trace file's existence, its content, and the `--json` /
`--ci` flags determine the outcome. `parse_lcov` exits 1 before any
rendering when the file is missing; otherwise the chosen renderer returns
the overall coverage, and `--ci` gates on it against `TARGETS['overall']`. -/
def main (fileExists : Bool) (content : List Char) (jsonFlag ciFlag : Bool) : Outcome :=
  if !fileExists then .exits 1 false
  else
    match parse_lcov content with
    | none => .raises
    | some res =>
      let cov := if jsonFlag then (print_json res).overall_coverage else print_report_cov res
      if ciFlag then
        if cov < (overallTarget : ℚ) then .exits 1 true else .exits 0 true
      else .exits 0 true

/-- A block whose `LF:`/`LH:` payloads (when both records are present) parse
as integers; on such blocks `int` cannot raise. -/
def blockOk (b : List Char) : Bool :=
  match (pySplit ['\n'] b).filter (fun l => pyStartsWith l "LF:".data),
        (pySplit ['\n'] b).filter (fun l => pyStartsWith l "LH:".data) with
  | lfLine :: _, lhLine :: _ =>
    (pyInt? ((pySplit ":".data lfLine).getD 1 [])).isSome &&
      (pyInt? ((pySplit ":".data lhLine).getD 1 [])).isSome
  | _, _ => true

/-- A block whose consumed record (if any) already satisfies
`0 ≤ lines_hit ≤ lines_found`. The parser itself never checks this. -/
def blockConsistent (b : List Char) : Bool :=
  match blockRecord? b with
  | some (some (_, lf, lh)) => decide (0 ≤ lh) && decide (lh ≤ lf)
  | _ => true

/-! ## Invariant machinery for the partition property -/

/-- The seven non-generated buckets partition the running total. -/
def partitioned (r : Results) : Prop :=
  r.domain.hit + r.data.hit + r.application.hit + r.presentation.hit +
      r.services.hit + r.core.hit + r.other.hit = r.total.hit ∧
  r.domain.lines + r.data.lines + r.application.lines + r.presentation.lines +
      r.services.lines + r.core.lines + r.other.lines = r.total.lines

lemma partitioned_addRecord (r : Results) (f : List Char) (lf lh : Int)
    (h : partitioned r) : partitioned (addRecord r f lf lh) := by
  unfold addRecord
  by_cases hg : isGenerated f
  · simpa [hg, partitioned] using h
  · simp only [hg, Bool.false_eq_true, if_false]
    obtain ⟨h1, h2⟩ := h
    cases hc : classify f <;>
      simp [layerAdd, addC, partitioned] <;> constructor <;> omega

lemma partitioned_processBlock (r r' : Results) (b : List Char)
    (h : processBlock r b = some r') (hp : partitioned r) : partitioned r' := by
  unfold processBlock at h
  rcases hb : blockRecord? b with _ | o
  · rw [hb] at h; exact absurd h (by simp)
  · rcases o with _ | ⟨f, lf, lh⟩
    · rw [hb] at h
      simp only [Option.some.injEq] at h
      exact h ▸ hp
    · rw [hb] at h
      simp only [Option.some.injEq] at h
      exact h ▸ partitioned_addRecord r f lf lh hp

lemma partitioned_runBlocks : ∀ (bs : List (List Char)) (r r' : Results),
    runBlocks r bs = some r' → partitioned r → partitioned r'
  | [], r, r', h, hp => by
    simp only [runBlocks, Option.some.injEq] at h
    exact h ▸ hp
  | b :: bs, r, r', h, hp => by
    unfold runBlocks at h
    rcases hb : processBlock r b with _ | r₀
    · rw [hb] at h; exact absurd h (by simp)
    · rw [hb] at h
      exact partitioned_runBlocks bs r₀ r' h (partitioned_processBlock r r₀ b hb hp)

/-! ## Claim theorems -/

/-- C3: for every trace input that parses, the sum of `lines_hit` over the
seven non-generated buckets (domain, data, application, presentation,
services, core, other) equals the total bucket's `lines_hit`, and likewise
for `lines_found`. -/
theorem c3_partition_invariant (content : List Char) (res : Results)
    (h : parse_lcov content = some res) :
    res.domain.hit + res.data.hit + res.application.hit + res.presentation.hit +
        res.services.hit + res.core.hit + res.other.hit = res.total.hit ∧
    res.domain.lines + res.data.lines + res.application.lines + res.presentation.lines +
        res.services.lines + res.core.lines + res.other.lines = res.total.lines :=
  partitioned_runBlocks (fileBlocks content) zeroResults res h (by constructor <;> rfl)

/-- Witness for C3 at a concrete two-block trace. -/
theorem c3_partition_witness :
    let res : Results := ⟨⟨14, 9⟩, ⟨0, 0⟩, ⟨10, 8⟩, ⟨0, 0⟩, ⟨0, 0⟩, ⟨0, 0⟩, ⟨0, 0⟩, ⟨0, 0⟩, ⟨4, 1⟩⟩
    res.domain.hit + res.data.hit + res.application.hit + res.presentation.hit +
        res.services.hit + res.core.hit + res.other.hit = res.total.hit ∧
    res.domain.lines + res.data.lines + res.application.lines + res.presentation.lines +
        res.services.lines + res.core.lines + res.other.lines = res.total.lines :=
  c3_partition_invariant "SF:/domain/a.dart\nLF:10\nLH:8\nSF:b.dart\nLF:4\nLH:1\n".data
    ⟨⟨14, 9⟩, ⟨0, 0⟩, ⟨10, 8⟩, ⟨0, 0⟩, ⟨0, 0⟩, ⟨0, 0⟩, ⟨0, 0⟩, ⟨0, 0⟩, ⟨4, 1⟩⟩ (by decide)

/-- C4: a file whose path contains a generated marker contributes only to
the `generated` bucket (total and all layers untouched); every other file
contributes to `total` and to exactly the one bucket chosen by the
first-match chain; in particular a path containing `/domain/` is classified
`domain`. -/
theorem c4_classification (r : Results) (f : List Char) (lf lh : Int) :
    (isGenerated f = true →
      addRecord r f lf lh = { r with generated := addC r.generated lf lh }) ∧
    (isGenerated f = false →
      (addRecord r f lf lh).total = addC r.total lf lh ∧
      (addRecord r f lf lh).generated = r.generated ∧
      ∀ l : Layer, layerGet (addRecord r f lf lh) l =
        if l = classify f then addC (layerGet r l) lf lh else layerGet r l) ∧
    (pyContains f "/domain/".data = true → classify f = .domain) := by
  refine ⟨?_, ?_, ?_⟩
  · intro hg; simp [addRecord, hg]
  · intro hg
    refine ⟨?_, ?_, ?_⟩
    · simp only [addRecord, hg, Bool.false_eq_true, if_false]
      cases hc : classify f <;> simp [layerAdd]
    · simp only [addRecord, hg, Bool.false_eq_true, if_false]
      cases hc : classify f <;> simp [layerAdd]
    · intro l
      simp only [addRecord, hg, Bool.false_eq_true, if_false]
      cases hc : classify f <;> cases l <;> simp [layerAdd, layerGet]
  · intro hd; simp [classify, hd]

/-- Witness for C4: a generated path goes only to `generated`, and a
`/domain/` path is classified `domain`. -/
theorem c4_classification_witness :
    addRecord zeroResults "bar.g.dart".data 5 5 =
      { zeroResults with generated := addC zeroResults.generated 5 5 } ∧
    classify "/domain/x.dart".data = .domain :=
  ⟨(c4_classification zeroResults "bar.g.dart".data 5 5).1 (by decide),
   (c4_classification zeroResults "/domain/x.dart".data 0 0).2.2 (by decide)⟩

/-- C5: the status printed for a displayed layer follows the three-way rule
(`PASS` at or above target, `WARN` within 10 points below, `FAIL` further
below); a layer with positive `lines` is displayed with exactly that status;
a layer with zero `lines` has coverage `0.0` and is omitted from the table;
at target 80 the ratios 80, 75 and 69.9 give `PASS`, `WARN`, `FAIL`. -/
theorem c5_status_and_omission :
    (∀ cov t : ℚ,
      (t ≤ cov → layerStatus cov t = .PASS) ∧
      (t - 10 ≤ cov → cov < t → layerStatus cov t = .WARN) ∧
      (cov < t - 10 → layerStatus cov t = .FAIL)) ∧
    (∀ (r : Results) (l : Layer), 0 < (layerGet r l).lines →
      (⟨l, (layerGet r l).hit, (layerGet r l).lines, calculate_coverage (layerGet r l),
        TARGETS_get l,
        layerStatus (calculate_coverage (layerGet r l)) ((TARGETS_get l : Int) : ℚ)⟩ : Row)
        ∈ reportRows r) ∧
    (∀ (r : Results) (l : Layer), (layerGet r l).lines = 0 →
      calculate_coverage (layerGet r l) = 0 ∧ ∀ row ∈ reportRows r, row.layer ≠ l) ∧
    (layerStatus 80 80 = .PASS ∧ layerStatus 75 80 = .WARN ∧
      layerStatus (699 / 10) 80 = .FAIL) := by
  refine ⟨?_, ?_, ?_, ?_⟩
  · intro cov t
    refine ⟨fun h => ?_, fun h1 h2 => ?_, fun h => ?_⟩
    · simp [layerStatus, h]
    · simp [layerStatus, ge_iff_le, h1, not_le.mpr h2]
    · have h2 : ¬ t ≤ cov := by linarith
      have h3 : ¬ t - 10 ≤ cov := by linarith
      simp [layerStatus, ge_iff_le, h2, h3]
  · intro r l hl
    refine List.mem_filterMap.mpr ⟨l, ?_, ?_⟩
    · cases l <;> simp [displayOrder]
    · simp [hl]
  · intro r l hl
    refine ⟨by simp [calculate_coverage, hl], ?_⟩
    intro row hrow
    obtain ⟨a, _, hga⟩ := List.mem_filterMap.mp hrow
    by_cases hp : (layerGet r a).lines > 0
    · simp only [hp, if_true] at hga
      obtain rfl := Option.some.inj hga
      intro hla
      rw [show a = l from hla] at hp
      omega
    · simp [hp] at hga
  · refine ⟨by norm_num [layerStatus], by norm_num [layerStatus], by norm_num [layerStatus]⟩

/-- Witness for C5 at a concrete `Results` value with one nonzero and one
zero layer. -/
theorem c5_status_witness :
    let r : Results := ⟨⟨10, 8⟩, ⟨0, 0⟩, ⟨10, 8⟩, ⟨0, 0⟩, ⟨0, 0⟩, ⟨0, 0⟩, ⟨0, 0⟩, ⟨0, 0⟩, ⟨0, 0⟩⟩
    ((⟨.domain, (layerGet r .domain).hit, (layerGet r .domain).lines,
        calculate_coverage (layerGet r .domain), TARGETS_get .domain,
        layerStatus (calculate_coverage (layerGet r .domain))
          ((TARGETS_get .domain : Int) : ℚ)⟩ : Row) ∈ reportRows r) ∧
    (calculate_coverage (layerGet r .core) = 0 ∧ ∀ row ∈ reportRows r, row.layer ≠ .core) :=
  ⟨c5_status_and_omission.2.1 _ .domain (by decide),
   c5_status_and_omission.2.2.1 _ .core (by decide)⟩

/-- C1 counterexample: on a trace with overall ratio 75 (target 80) the
overall block shows `FAIL`, while the three-way layer rule would give
`WARN`; so the overall status is not computed with the layers' rule. -/
theorem c1_counterexample :
    (parse_lcov "SF:a\nLF:4\nLH:3\n".data).map (fun res =>
      (overall_status (calculate_coverage res.total),
       layerStatus (calculate_coverage res.total) ((overallTarget : Int) : ℚ))) =
      some (.FAIL, .WARN) := by
  have hp : parse_lcov "SF:a\nLF:4\nLH:3\n".data =
      some ⟨⟨4, 3⟩, ⟨0, 0⟩, ⟨0, 0⟩, ⟨0, 0⟩, ⟨0, 0⟩, ⟨0, 0⟩, ⟨0, 0⟩, ⟨0, 0⟩, ⟨4, 3⟩⟩ := by
    decide
  rw [hp]
  have hc : calculate_coverage (⟨4, 3⟩ : Counts) = 75 := by
    norm_num [calculate_coverage]
  simp only [Option.map_some']
  rw [hc]
  norm_num [overall_status, layerStatus, overallTarget]

/-- C1 amended: the status in the overall-coverage block is two-way, `PASS`
when the overall ratio is at or above the overall target and `FAIL`
otherwise; the `WARN` band of the per-layer rule does not apply to it. -/
theorem c1_overall_status_two_way (content : List Char) (res : Results)
    (_h : parse_lcov content = some res) :
    (((overallTarget : Int) : ℚ) ≤ calculate_coverage res.total →
      overall_status (calculate_coverage res.total) = .PASS) ∧
    (calculate_coverage res.total < ((overallTarget : Int) : ℚ) →
      overall_status (calculate_coverage res.total) = .FAIL) := by
  constructor
  · intro hge; simp [overall_status, ge_iff_le, hge]
  · intro hlt; simp [overall_status, ge_iff_le, not_le.mpr hlt]

/-- Witness for the amended C1 at the 75%-coverage trace. -/
theorem c1_overall_status_witness :
    overall_status (calculate_coverage
      (⟨⟨4, 3⟩, ⟨0, 0⟩, ⟨0, 0⟩, ⟨0, 0⟩, ⟨0, 0⟩, ⟨0, 0⟩, ⟨0, 0⟩, ⟨0, 0⟩,
        ⟨4, 3⟩⟩ : Results).total) = .FAIL :=
  (c1_overall_status_two_way "SF:a\nLF:4\nLH:3\n".data
      ⟨⟨4, 3⟩, ⟨0, 0⟩, ⟨0, 0⟩, ⟨0, 0⟩, ⟨0, 0⟩, ⟨0, 0⟩, ⟨0, 0⟩, ⟨0, 0⟩, ⟨4, 3⟩⟩
      (by decide)).2 (by norm_num [calculate_coverage, overallTarget])

/-- C2: the end-to-end example: one non-generated `/domain/` block with
`LF:10`, `LH:8` and one generated `bar.g.dart` block with `LF:5`, `LH:5`
give overall coverage 80.0, `generated_excluded = 5`, a structured output
whose `layers` mapping is exactly `domain` with coverage 80.0, and a
`FAIL` status for `domain` against its target 95. -/
theorem c2_end_to_end :
    parse_lcov
        "SF:/domain/foo.dart\nLF:10\nLH:8\nend_of_record\nSF:bar.g.dart\nLF:5\nLH:5\nend_of_record\n".data =
      some ⟨⟨10, 8⟩, ⟨5, 5⟩, ⟨10, 8⟩, ⟨0, 0⟩, ⟨0, 0⟩, ⟨0, 0⟩, ⟨0, 0⟩, ⟨0, 0⟩, ⟨0, 0⟩⟩ ∧
    calculate_coverage
        (⟨⟨10, 8⟩, ⟨5, 5⟩, ⟨10, 8⟩, ⟨0, 0⟩, ⟨0, 0⟩, ⟨0, 0⟩, ⟨0, 0⟩, ⟨0, 0⟩,
          ⟨0, 0⟩⟩ : Results).total = 80 ∧
    (print_json ⟨⟨10, 8⟩, ⟨5, 5⟩, ⟨10, 8⟩, ⟨0, 0⟩, ⟨0, 0⟩, ⟨0, 0⟩, ⟨0, 0⟩, ⟨0, 0⟩,
        ⟨0, 0⟩⟩).generated_excluded = 5 ∧
    (print_json ⟨⟨10, 8⟩, ⟨5, 5⟩, ⟨10, 8⟩, ⟨0, 0⟩, ⟨0, 0⟩, ⟨0, 0⟩, ⟨0, 0⟩, ⟨0, 0⟩,
        ⟨0, 0⟩⟩).layers = [(.domain, ⟨80, 8, 10, 95⟩)] ∧
    layerStatus (calculate_coverage
        (⟨⟨10, 8⟩, ⟨5, 5⟩, ⟨10, 8⟩, ⟨0, 0⟩, ⟨0, 0⟩, ⟨0, 0⟩, ⟨0, 0⟩, ⟨0, 0⟩,
          ⟨0, 0⟩⟩ : Results).domain) ((TARGETS_get .domain : Int) : ℚ) = .FAIL := by
  refine ⟨by decide, by norm_num [calculate_coverage], rfl, ?_, ?_⟩
  · simp only [print_json, displayOrder, layerGet, List.filterMap]
    norm_num [roundTo1, calculate_coverage, TARGETS_get]
  · norm_num [calculate_coverage, layerStatus, TARGETS_get]

/-- C6: when the trace file is missing, the run exits with code 1 before
rendering anything, for every content and every flag combination. -/
theorem c6_missing_trace_exits_one (content : List Char) (jsonFlag ciFlag : Bool) :
    main false content jsonFlag ciFlag = .exits 1 false := by
  simp [main]

/-- C7: with an existing, parseable trace file, the exit code is 1 exactly
when `--ci` is set and the overall ratio is strictly below the overall
target, and 0 exactly otherwise, always after rendering. -/
theorem c7_ci_gating (content : List Char) (jsonFlag ciFlag : Bool) (res : Results)
    (h : parse_lcov content = some res) :
    (main true content jsonFlag ciFlag = .exits 1 true ↔
      ciFlag = true ∧ calculate_coverage res.total < ((overallTarget : Int) : ℚ)) ∧
    (main true content jsonFlag ciFlag = .exits 0 true ↔
      (ciFlag = false ∨ ((overallTarget : Int) : ℚ) ≤ calculate_coverage res.total)) := by
  have hov : (if jsonFlag then (print_json res).overall_coverage else print_report_cov res) =
      calculate_coverage res.total := by
    cases jsonFlag <;> simp [print_json, print_report_cov]
  cases ciFlag
  · simp [main, h, hov]
  · by_cases hcov : calculate_coverage res.total < ((overallTarget : Int) : ℚ)
    · simp [main, h, hov, hcov, not_le.mpr hcov]
    · simp [main, h, hov, hcov, le_of_not_lt hcov]

/-- Witness for C7: `--ci` on a 50%-coverage trace exits 1. -/
theorem c7_ci_gating_witness :
    main true "SF:x\nLF:2\nLH:1\n".data false true = .exits 1 true :=
  ((c7_ci_gating "SF:x\nLF:2\nLH:1\n".data false true
      ⟨⟨2, 1⟩, ⟨0, 0⟩, ⟨0, 0⟩, ⟨0, 0⟩, ⟨0, 0⟩, ⟨0, 0⟩, ⟨0, 0⟩, ⟨0, 0⟩, ⟨2, 1⟩⟩
      (by decide)).1).mpr ⟨rfl, by norm_num [calculate_coverage, overallTarget]⟩

lemma processBlock_of_blockOk (r : Results) (b : List Char) (hb : blockOk b = true) :
    ∃ r', processBlock r b = some r' := by
  unfold blockOk at hb
  unfold processBlock blockRecord? recordOfLines
  rcases hf : (pySplit ['\n'] b).filter (fun l => pyStartsWith l "LF:".data) with _ | ⟨lfL, lfT⟩ <;>
    rcases hh : (pySplit ['\n'] b).filter (fun l => pyStartsWith l "LH:".data) with _ | ⟨lhL, lhT⟩
  · exact ⟨r, rfl⟩
  · exact ⟨r, rfl⟩
  · exact ⟨r, rfl⟩
  · rcases h1 : pyInt? ((pySplit ":".data lfL).getD 1 []) with _ | lf <;>
      rcases h2 : pyInt? ((pySplit ":".data lhL).getD 1 []) with _ | lh <;>
        simp_all

lemma runBlocks_of_all_blockOk : ∀ (bs : List (List Char)) (r : Results),
    bs.all blockOk = true → ∃ res, runBlocks r bs = some res
  | [], r, _ => ⟨r, rfl⟩
  | b :: bs, r, h => by
    rw [List.all_cons, Bool.and_eq_true] at h
    obtain ⟨r', hr'⟩ := processBlock_of_blockOk r b h.1
    obtain ⟨res, hres⟩ := runBlocks_of_all_blockOk bs r' h.2
    exact ⟨res, by rw [runBlocks, hr']; exact hres⟩

/-- C8 counterexample: a block whose `LF:` payload is not an integer makes
`int` raise `ValueError`, and the exception escapes `main` — the run does
not end via a defined exit code. -/
theorem c8_counterexample :
    main true "SF:a\nLF:x\nLH:1\n".data false false = .raises := by
  decide

/-- C8 amended: no exception escapes provided every block's first `LF:` and
`LH:` payloads (when both records are present) parse as integers; and a
block missing its `LF:` or `LH:` record is silently skipped, contributing
nothing to any totals. -/
theorem c8_exception_safety_amended (content : List Char) :
    ((fileBlocks content).all blockOk = true → ∃ res, parse_lcov content = some res) ∧
    (∀ (r : Results) (b : List Char),
      ((pySplit ['\n'] b).filter (fun l => pyStartsWith l "LF:".data) = [] ∨
       (pySplit ['\n'] b).filter (fun l => pyStartsWith l "LH:".data) = []) →
      processBlock r b = some r) := by
  constructor
  · intro h
    exact runBlocks_of_all_blockOk (fileBlocks content) zeroResults h
  · intro r b hmiss
    unfold processBlock blockRecord? recordOfLines
    rcases hmiss with h | h
    · rw [h]
    · rcases hf : (pySplit ['\n'] b).filter (fun l => pyStartsWith l "LF:".data) with _ | ⟨x, xs⟩ <;>
        rw [h]

/-- Witness for the amended C8: a well-payload trace parses, and a block
missing `LF:` is skipped. -/
theorem c8_exception_safety_witness :
    (∃ res, parse_lcov "SF:a\nLF:1\nLH:1\n".data = some res) ∧
    processBlock zeroResults "a\nLH:1\n".data = some zeroResults :=
  ⟨(c8_exception_safety_amended "SF:a\nLF:1\nLH:1\n".data).1 (by decide),
   (c8_exception_safety_amended "".data).2 zeroResults "a\nLH:1\n".data (Or.inl (by decide))⟩

/-- C9 counterexample: a block with `LF:5`, `LH:7` is consumed as the record
`("a", 5, 7)`, whose `lines_hit` 7 exceeds its `lines_found` 5 — the parser
enforces no `lines_hit ≤ lines_found` invariant. -/
theorem c9_counterexample :
    fileRecords? "SF:a\nLF:5\nLH:7\n".data = some [(['a'], 5, 7)] ∧ ¬ ((7 : Int) ≤ 5) :=
  ⟨by decide, by decide⟩

lemma fileRecordsGo_consistent :
    ∀ (bs : List (List Char)) (acc recs : List (List Char × Int × Int)),
    (∀ b ∈ bs, blockConsistent b = true) →
    fileRecordsGo acc bs = some recs →
    (∀ r ∈ acc, 0 ≤ r.2.2 ∧ r.2.2 ≤ r.2.1) →
    ∀ r ∈ recs, 0 ≤ r.2.2 ∧ r.2.2 ≤ r.2.1
  | [], acc, recs, _, h, hacc => by
    simp only [fileRecordsGo, Option.some.injEq] at h
    exact h ▸ hacc
  | b :: bs, acc, recs, hcons, h, hacc => by
    unfold fileRecordsGo at h
    rcases hb : blockRecord? b with _ | o
    · rw [hb] at h; exact absurd h (by simp)
    · rcases o with _ | ⟨f, lf, lh⟩
      · rw [hb] at h
        exact fileRecordsGo_consistent bs acc recs
          (fun b' hb' => hcons b' (List.mem_cons_of_mem b hb')) h hacc
      · rw [hb] at h
        have hblk := hcons b (List.mem_cons_self b bs)
        rw [blockConsistent, hb] at hblk
        simp only [Bool.and_eq_true, decide_eq_true_eq] at hblk
        refine fileRecordsGo_consistent bs (acc ++ [(f, lf, lh)]) recs
          (fun b' hb' => hcons b' (List.mem_cons_of_mem b hb')) h ?_
        intro r hr
        rcases List.mem_append.mp hr with hr | hr
        · exact hacc r hr
        · rw [List.mem_singleton.mp hr]
          exact hblk

/-- C9 amended: the parser copies the first `LF:`/`LH:` integers into the
record without any validation, so `0 ≤ lines_hit ≤ lines_found` holds for
the consumed records exactly when the input's own blocks satisfy it: for a
trace all of whose blocks are consistent, every consumed record satisfies
the invariant. -/
theorem c9_record_invariant_amended (content : List Char)
    (recs : List (List Char × Int × Int))
    (h : fileRecords? content = some recs)
    (hcons : ∀ b ∈ fileBlocks content, blockConsistent b = true) :
    ∀ r ∈ recs, 0 ≤ r.2.2 ∧ r.2.2 ≤ r.2.1 :=
  fileRecordsGo_consistent (fileBlocks content) [] recs hcons h (by simp)

/-- Witness for the amended C9 at a consistent one-block trace. -/
theorem c9_record_invariant_witness :
    (0 : Int) ≤ (['a'], (5 : Int), (3 : Int)).2.2 ∧
      (['a'], (5 : Int), (3 : Int)).2.2 ≤ (['a'], (5 : Int), (3 : Int)).2.1 :=
  c9_record_invariant_amended "SF:a\nLF:5\nLH:3\n".data [(['a'], 5, 3)]
    (by decide) (by decide) (['a'], 5, 3) (by decide)

lemma pyStartsWith_LF_not_LH (l : List Char)
    (h : pyStartsWith l "LF:".data = true) : pyStartsWith l "LH:".data = false := by
  rcases l with _ | ⟨a, _ | ⟨b, l₂⟩⟩ <;>
    simp [pyStartsWith, List.isPrefixOf] at h ⊢
  obtain ⟨-, hb, -⟩ := h
  intro _ hb'
  exact absurd (hb.trans hb'.symm) (by decide)

lemma pyStartsWith_LH_not_LF (l : List Char)
    (h : pyStartsWith l "LH:".data = true) : pyStartsWith l "LF:".data = false := by
  rcases l with _ | ⟨a, _ | ⟨b, l₂⟩⟩ <;>
    simp [pyStartsWith, List.isPrefixOf] at h ⊢
  obtain ⟨-, hb, -⟩ := h
  intro _ hb'
  exact absurd (hb.trans hb'.symm) (by decide)

lemma head?_filter_find (p : List Char → Bool) :
    ∀ ls : List (List Char), (ls.filter p).head? = ls.find? p
  | [] => rfl
  | a :: ls => by
    by_cases h : p a <;>
      simp [List.filter_cons, List.find?_cons, h, head?_filter_find p ls]

/-- C10: only the first `LF:` line and the first `LH:` line of a block are
used; later occurrences are ignored. First, deleting any `LF:` line that is
preceded by another `LF:` line — wherever it sits, before or after the
first `LH:` line — leaves the block's record unchanged, and symmetrically
for `LH:`; second, whenever both records are present, the consumed values
come exactly from the first (`List.find?`) `LF:` line and the first `LH:`
line, with the block's first line as the path. -/
theorem c10_first_occurrence :
    (∀ (pre post : List (List Char)) (dup : List Char),
      pyStartsWith dup "LF:".data = true →
      pre.filter (fun l => pyStartsWith l "LF:".data) ≠ [] →
      recordOfLines (pre ++ dup :: post) = recordOfLines (pre ++ post)) ∧
    (∀ (pre post : List (List Char)) (dup : List Char),
      pyStartsWith dup "LH:".data = true →
      pre.filter (fun l => pyStartsWith l "LH:".data) ≠ [] →
      recordOfLines (pre ++ dup :: post) = recordOfLines (pre ++ post)) ∧
    (∀ (ls : List (List Char)) (lfLine lhLine : List Char),
      ls.find? (fun l => pyStartsWith l "LF:".data) = some lfLine →
      ls.find? (fun l => pyStartsWith l "LH:".data) = some lhLine →
      recordOfLines ls =
        match pyInt? ((pySplit ":".data lfLine).getD 1 []),
              pyInt? ((pySplit ":".data lhLine).getD 1 []) with
        | some lf, some lh => some (some (ls.headD [], lf, lh))
        | _, _ => none) := by
  refine ⟨?_, ?_, ?_⟩
  · intro pre post dup hdup hpre
    obtain ⟨x, xs, hx⟩ := List.exists_cons_of_ne_nil hpre
    have hpreNe : pre ≠ [] := by
      rintro rfl
      rw [List.filter_nil] at hx
      exact List.noConfusion hx
    have hdupLH : pyStartsWith dup "LH:".data = false := pyStartsWith_LF_not_LH dup hdup
    have hhead : (pre ++ dup :: post).headD ([] : List Char) = (pre ++ post).headD [] := by
      rcases pre with _ | ⟨a, t⟩
      · exact absurd rfl hpreNe
      · rfl
    unfold recordOfLines
    simp only [List.filter_append, List.filter_cons, hdup, hdupLH, if_true,
      Bool.false_eq_true, if_false, hx, List.cons_append, hhead]
    rcases (List.filter (fun l => pyStartsWith l "LH:".data) pre ++
        List.filter (fun l => pyStartsWith l "LH:".data) post) with _ | ⟨y, ys⟩
    · rfl
    · rfl
  · intro pre post dup hdup hpre
    obtain ⟨y, ys, hy⟩ := List.exists_cons_of_ne_nil hpre
    have hpreNe : pre ≠ [] := by
      rintro rfl
      rw [List.filter_nil] at hy
      exact List.noConfusion hy
    have hdupLF : pyStartsWith dup "LF:".data = false := pyStartsWith_LH_not_LF dup hdup
    have hhead : (pre ++ dup :: post).headD ([] : List Char) = (pre ++ post).headD [] := by
      rcases pre with _ | ⟨a, t⟩
      · exact absurd rfl hpreNe
      · rfl
    unfold recordOfLines
    simp only [List.filter_append, List.filter_cons, hdup, hdupLF, if_true,
      Bool.false_eq_true, if_false, hy, List.cons_append, hhead]
    rcases (List.filter (fun l => pyStartsWith l "LF:".data) pre ++
        List.filter (fun l => pyStartsWith l "LF:".data) post) with _ | ⟨x, xs⟩
    · rfl
    · rfl
  · intro ls lfLine lhLine hf hh
    have hf' : (ls.filter (fun l => pyStartsWith l "LF:".data)).head? = some lfLine := by
      rw [head?_filter_find]; exact hf
    have hh' : (ls.filter (fun l => pyStartsWith l "LH:".data)).head? = some lhLine := by
      rw [head?_filter_find]; exact hh
    rcases hfe : ls.filter (fun l => pyStartsWith l "LF:".data) with _ | ⟨x, xs⟩
    · rw [hfe] at hf'; exact Option.noConfusion hf'
    · rcases hhe : ls.filter (fun l => pyStartsWith l "LH:".data) with _ | ⟨y, ys⟩
      · rw [hhe] at hh'; exact Option.noConfusion hh'
      · rw [hfe] at hf'
        rw [hhe] at hh'
        obtain rfl : x = lfLine := Option.some.inj hf'
        obtain rfl : y = lhLine := Option.some.inj hh'
        unfold recordOfLines
        rw [hfe, hhe]

/-- Witness for C10: deleting a duplicate `LF:` line that sits between the
first `LF:` line and the first `LH:` line leaves the consumed record
unchanged. -/
theorem c10_first_occurrence_witness :
    recordOfLines [['p'], "LF:1".data, "LF:9".data, "LH:2".data] =
      recordOfLines [['p'], "LF:1".data, "LH:2".data] :=
  c10_first_occurrence.1 [['p'], "LF:1".data] ["LH:2".data] "LF:9".data
    (by decide) (by decide)

end CoverageReport
